import Mathlib

/-!
Verification of the multipart-polygon resolution engine of
`cl-census24-zone-design` (`src/polygon_processors/multipart_relabeller.py`).

The engine is embedded shallowly: geometry is abstracted to a type `G`
together with the two primitives the Python code uses (a topological touch
test and a shared-boundary-length measurement), numeric dataframe columns
become a map `String → ℚ`, and Python strings become Lean `String`s
manipulated through helpers that mirror Python slicing, `zfill`, `ljust`,
`startswith` and `int()` on digit strings.  The orchestrator's mutable
state (`resolved_rows`, `consumed_dup_idx`, `consumed_nondup_idx`,
`self.generated_ids`) is threaded explicitly through a fold over the
part-groups, in the order `groupby` yields them.
-/

namespace Census

attribute [local semireducible] Rat.add Rat.mul Rat.sub Rat.inv

/-! ### Python string primitives -/

/-- Python `s[:n]`. -/
def pyTake (s : String) (n : Nat) : String := ⟨s.data.take n⟩

/-- Python `s[:-n]` (empty result when `n ≥ len(s)`). -/
def pyDropRight (s : String) (n : Nat) : String := ⟨s.data.take (s.data.length - n)⟩

/-- Python `s[-n:]` (the whole string when `n ≥ len(s)`). -/
def pyTakeRight (s : String) (n : Nat) : String := ⟨s.data.drop (s.data.length - n)⟩

/-- Python `s.ljust(w, c)`. -/
def pyLjust (s : String) (w : Nat) (c : Char) : String :=
  ⟨s.data ++ List.replicate (w - s.data.length) c⟩

/-- Python `s.zfill(w)` on an unsigned digit string. -/
def pyZfill (s : String) (w : Nat) : String :=
  ⟨List.replicate (w - s.data.length) '0' ++ s.data⟩

/-- Boolean list-leading test used to model Python `startswith`. -/
def listLeads : List Char → List Char → Bool
  | [], _ => true
  | _ :: _, [] => false
  | a :: as, b :: bs => a == b && listLeads as bs

/-- Python `s.startswith(pre)`. -/
def pyStartswith (s pre : String) : Bool := listLeads pre.data s.data

/-- Decimal digit character for `n < 10`. -/
def digitChar (n : Nat) : Char :=
  match n with
  | 0 => '0' | 1 => '1' | 2 => '2' | 3 => '3' | 4 => '4'
  | 5 => '5' | 6 => '6' | 7 => '7' | 8 => '8' | _ => '9'

/-- Numeric value of a decimal digit character. -/
def digitVal (c : Char) : Nat := c.toNat - 48

/-- Fuel-bounded decimal rendering (structural recursion so the kernel can
evaluate it; `fuel = n + 1` always suffices). -/
def natDigitsAux : Nat → Nat → List Char
  | 0, _ => []
  | fuel + 1, n =>
    if n < 10 then [digitChar n] else natDigitsAux fuel (n / 10) ++ [digitChar (n % 10)]

/-- Python `str(n)` for a nonnegative integer. -/
def natStr (n : Nat) : String := ⟨natDigitsAux (n + 1) n⟩

/-- Python `int(s)` on a string of decimal digits (the code only ever parses
identifier suffixes, which are digit strings). -/
def parseNat (s : String) : Nat := s.data.foldl (fun a c => a * 10 + digitVal c) 0

/-! ### Data model -/

/-- The geometric primitives used by `multipart_relabeller.py`:
`touches g1 g2` models `g1.touches(g2)`, `shared g1 g2` models
`g1.boundary.intersection(g2.boundary).length`, `gunion` models shapely
`union`, and `empty` the empty geometry (`union_all` of nothing). -/
structure GeoModel (G : Type) where
  touches : G → G → Bool
  shared : G → G → ℚ
  gunion : G → G → G
  empty : G

/-- One dataframe record of the resolution pipeline.  Numeric columns are a
total map from column name to value; the remaining columns of interest are
explicit fields. -/
structure Row (G : Type) where
  commune_id : String
  commune : String
  zone_type : String
  orig_id : String
  poly_id : String
  was_multipart : Nat
  comb_adj : Nat
  geom : G
  num : String → ℚ

instance (G : Type) [Inhabited G] : Inhabited (Row G) :=
  ⟨⟨"", "", "", "", "", 0, 0, default, fun _ => 0⟩⟩

/-- The relabeller's numeric-column configuration (`num_cols`, `count_cols`,
`pop_col`). -/
structure Config where
  num_cols : List String
  count_cols : List String
  pop_col : String

/-- The averaged columns: `[c for c in self.num_cols if c not in self.count_cols]`. -/
def avgCols (cfg : Config) : List String :=
  cfg.num_cols.filter fun c => !(cfg.count_cols.contains c)

/-- `geoms.union_all()`: fold of pairwise union over a geometry list. -/
def unionAll {G : Type} (M : GeoModel G) : List G → G
  | [] => M.empty
  | g :: gs => gs.foldl M.gunion g

/-- `df.loc[i]` on an indexed record list (indices are assumed unique, as
pandas indices are in this pipeline). -/
def lookupRow {G : Type} (l : List (Nat × Row G)) (i : Nat) : Option (Row G) :=
  (l.find? fun p => p.1 == i).map (·.2)

/-! ### The embedded operations of `MultipartPolygonRelabeller` -/

/-- `_generate_new_id` (lines 84–98): strip the last two characters of
`orig_id`, scan `self.data[self.poly_id]` (here `data_ids`) united with
`self.generated_ids` (here `generated`) for identifiers starting with that
base, parse each one's last three characters as its numeric suffix, and
append `max + 1` zero-padded to three digits. -/
def generate_new_id (data_ids generated : List String) (orig_id : String) : String :=
  let base_id := pyDropRight orig_id 2
  let used_ids := data_ids ++ generated
  let suffixes := (used_ids.filter fun x => pyStartswith x base_id).map
    fun x => parseNat (pyTakeRight x 3)
  let next_suffix := suffixes.foldl max 0 + 1
  base_id ++ pyZfill (natStr next_suffix) 3

/-- The inner qualification of `_are_parts_contiguous` (lines 114–116):
a topological touch whose shared boundary length reaches `min_shared_len`. -/
def touchesWithLen {G : Type} (M : GeoModel G) (minLen : ℚ) (g1 g2 : G) : Bool :=
  M.touches g1 g2 && decide (minLen ≤ M.shared g1 g2)

/-- `_are_parts_contiguous` (lines 100–123): every part must have some other
part (`i ≠ j`) it touches with shared boundary `≥ min_shared_len`; a part
with no such sibling only rejects the group when there is more than one
part, so singleton (and empty) groups return `True`. -/
def are_parts_contiguous {G : Type} (M : GeoModel G) (geoms : List G) (minLen : ℚ) : Bool :=
  (List.finRange geoms.length).all fun i =>
    decide (geoms.length ≤ 1) ||
      (List.finRange geoms.length).any fun j =>
        decide (i ≠ j) && touchesWithLen M minLen (geoms.get i) (geoms.get j)

/-- The validity test of one candidate in `_find_best_adjacent_polygon`
(lines 138–149): the candidate touches every part and each shared boundary
reaches `min_shared_len`. -/
def candValid {G : Type} (M : GeoModel G) (minLen : ℚ) (parts : List G) (g : G) : Bool :=
  parts.all fun p => M.touches g p && decide (minLen ≤ M.shared g p)

/-- The `total_shared` accumulated for one candidate in
`_find_best_adjacent_polygon` (line 151).  The Python loop stops
accumulating on the first invalid part, but the total is only ever read
when the candidate is valid, where both computations agree. -/
def candTotal {G : Type} (M : GeoModel G) (parts : List G) (g : G) : ℚ :=
  (parts.map fun p => M.shared g p).sum

/-- One iteration of the candidate loop of `_find_best_adjacent_polygon`
(lines 134–155): a valid candidate replaces the running best exactly when
its total strictly exceeds `best_shared`. -/
def fbapStep {G : Type} (M : GeoModel G) (parts : List G) (minLen : ℚ)
    (acc : Option Nat × ℚ) (c : Nat × G) : Option Nat × ℚ :=
  if candValid M minLen parts c.2 && decide (acc.2 < candTotal M parts c.2)
  then (some c.1, candTotal M parts c.2) else acc

/-- `_find_best_adjacent_polygon` (lines 125–157), with `best_idx = None`
and `best_shared = 0.0` as the initial accumulator. -/
def find_best_adjacent_polygon {G : Type} (M : GeoModel G) (parts : List G)
    (candidates : List (Nat × G)) (minLen : ℚ) : Option Nat :=
  (candidates.foldl (fbapStep M parts minLen) (none, 0)).1

/-- A touching candidate of the two-hop search: pool label, record, and the
labels of the parts it touches (`touching_candidates` entries, lines
281–298). -/
def touchedParts {G : Type} (M : GeoModel G) (parts : List (Nat × Row G)) (c : Row G) :
    List Nat :=
  (parts.filter fun p => M.touches c.geom p.2.geom).map (·.1)

/-- STEP 1 of `_merge_remaining_with_two_targets` (lines 281–298): keep the
candidates touching at least one part, each paired with the labels of the
parts it touches. -/
def touchingCandidates {G : Type} (M : GeoModel G) (parts non_dup : List (Nat × Row G)) :
    List (Nat × Row G × List Nat) :=
  (non_dup.filter fun cand => parts.any fun p => M.touches cand.2.geom p.2.geom).map
    fun cand => (cand.1, cand.2, touchedParts M parts cand.2)

/-- The `total_shared` of a candidate pair (lines 334–349): each candidate
contributes its shared boundary length with every part it touches. -/
def pairScore {G : Type} (M : GeoModel G) (parts : List (Nat × Row G))
    (tc1 tc2 : Nat × Row G × List Nat) : ℚ :=
  ((parts.filter fun p => tc1.2.2.contains p.1).map fun p => M.shared tc1.2.1.geom p.2.geom).sum
    + ((parts.filter fun p => tc2.2.2.contains p.1).map fun p => M.shared tc2.2.1.geom p.2.geom).sum

/-- The body of the pair loop (lines 314–351): a pair qualifies when the two
candidates touch each other with shared length `≥ min_shared_len` and their
touched-part sets jointly cover every part; a qualifying pair is recorded as
`(idx1, idx2, total_shared, shared_len)`. -/
def pairEntry {G : Type} (M : GeoModel G) (minLen : ℚ) (parts : List (Nat × Row G))
    (pr : (Nat × Row G × List Nat) × (Nat × Row G × List Nat)) :
    Option (Nat × Nat × ℚ × ℚ) :=
  if M.touches pr.1.2.1.geom pr.2.2.1.geom
      && decide (minLen ≤ M.shared pr.1.2.1.geom pr.2.2.1.geom)
      && parts.all (fun p => pr.1.2.2.contains p.1 || pr.2.2.2.contains p.1)
  then some (pr.1.1, pr.2.1, pairScore M parts pr.1 pr.2,
    M.shared pr.1.2.1.geom pr.2.2.1.geom)
  else none

/-- All index pairs `i < j` of a list, in the double-loop order of lines
311–315. -/
def upperPairs {α : Type} : List α → List (α × α)
  | [] => []
  | x :: xs => (xs.map fun y => (x, y)) ++ upperPairs xs

/-- `valid_pairs` (lines 307–351). -/
def validPairs {G : Type} (M : GeoModel G) (minLen : ℚ) (parts non_dup : List (Nat × Row G)) :
    List (Nat × Nat × ℚ × ℚ) :=
  (upperPairs (touchingCandidates M parts non_dup)).filterMap (pairEntry M minLen parts)

/-- The strict lexicographic comparison behind
`valid_pairs.sort(key=lambda x: (x[2], x[3]), reverse=True)`. -/
def scoreGt (a b : Nat × Nat × ℚ × ℚ) : Bool :=
  decide (b.2.2.1 < a.2.2.1) || (decide (a.2.2.1 = b.2.2.1) && decide (b.2.2.2 < a.2.2.2))

/-- Fold computing `valid_pairs[0]` after the stable descending sort: a later
entry replaces the running best only when its `(total_shared, shared_len)`
key is strictly greater, so ties keep the earliest entry, as a stable
reverse sort does. -/
def pickTop (x : Nat × Nat × ℚ × ℚ) (xs : List (Nat × Nat × ℚ × ℚ)) : Nat × Nat × ℚ × ℚ :=
  xs.foldl (fun b y => if scoreGt y b then y else b) x

/-- The selection of STEP 3 (lines 353–360): `None` on an empty
`valid_pairs`, otherwise the top-ranked entry. -/
def selectTop : List (Nat × Nat × ℚ × ℚ) → Option (Nat × Nat × ℚ × ℚ)
  | [] => none
  | x :: xs => some (pickTop x xs)

/-- `_merge_parts_and_targets` (lines 379–437).  `parts` are the group's
records in dataframe order, `targets` the absorbed candidates; `data_ids`
and `generated` feed `_generate_new_id`.  The output starts from
`targets[0].copy()` and overwrites geometry, count columns, averaged
columns, `was_multipart`, `comb_adj`, the lineage `orig_id` and the new
`poly_id`. -/
def merge_parts_and_targets {G : Type} [Inhabited G] (M : GeoModel G) (cfg : Config)
    (parts targets : List (Row G)) (orig_id : String) (data_ids generated : List String) :
    Row G :=
  let base_dup := parts.headI
  let new_geom := targets.foldl (fun g t => M.gunion g t.geom) (unionAll M (parts.map (·.geom)))
  let pop_dup := base_dup.num cfg.pop_col
  let pop_targets := (targets.map fun t => t.num cfg.pop_col).sum
  let total_pop := pop_dup + pop_targets
  let t0 := targets.headI
  { t0 with
    geom := new_geom
    num := fun c =>
      if cfg.count_cols.contains c then
        base_dup.num c + (targets.map fun t => t.num c).sum
      else if (avgCols cfg).contains c then
        if 0 < total_pop then
          let dup_avg := base_dup.num c
          let targets_avg :=
            if 0 < pop_targets then
              (targets.map fun t => t.num c * t.num cfg.pop_col).sum / pop_targets
            else dup_avg
          dup_avg * (pop_dup / total_pop) + targets_avg * (pop_targets / total_pop)
        else base_dup.num c
      else t0.num c
    was_multipart := 1
    comb_adj := targets.length
    orig_id := String.intercalate "_" (base_dup.orig_id :: targets.map (·.orig_id))
    poly_id := generate_new_id data_ids generated orig_id }

/-- `_merge_remaining_with_two_targets` (lines 266–376).  Returns, besides
the Python result `(new_row, [best_idx1, best_idx2])`, the two looked-up
target records themselves (`non_dup_gdf.loc[...]`, lines 361–362), which
the Python code recomputes from the labels. -/
def merge_remaining_with_two_targets {G : Type} [Inhabited G] (M : GeoModel G) (cfg : Config)
    (parts non_dup : List (Nat × Row G)) (orig_id : String)
    (data_ids generated : List String) (minLen : ℚ) :
    Option (Row G × List (Row G) × List Nat) :=
  if (touchingCandidates M parts non_dup).length < 2 then none
  else
    match selectTop (validPairs M minLen parts non_dup) with
    | none => none
    | some e =>
      match lookupRow non_dup e.1, lookupRow non_dup e.2.1 with
      | some t1, some t2 =>
        some (merge_parts_and_targets M cfg (parts.map (·.2)) [t1, t2] orig_id
            data_ids generated,
          [t1, t2], [e.1, e.2.1])
      | _, _ => none


/-- The per-group mutable state of `_resolve_multipart_by_contiguity`
(lines 168–170 and `self.generated_ids`). -/
structure ResolveState (G : Type) where
  resolved : List (Row G)
  consumed_dup : List Nat
  consumed_nondup : List Nat
  generated : List String

/-- The empty state at the start of a resolution run. -/
def initState (G : Type) : ResolveState G := ⟨[], [], [], []⟩

/-- The three-tier decision for one part-group (lines 172–226): direct union
on contiguity, else the best single adjacent candidate, else the two-hop
pair.  Returns the new output row, the absorbed target records, and the
consumed candidate-pool labels; `none` leaves the group unresolved. -/
def resolveGroupCore {G : Type} [Inhabited G] (M : GeoModel G) (cfg : Config)
    (non_dup : List (Nat × Row G)) (data_ids generated : List String) (minLen : ℚ)
    (orig_id : String) (parts : List (Nat × Row G)) :
    Option (Row G × List (Row G) × List Nat) :=
  if are_parts_contiguous M (parts.map (·.2.geom)) minLen then
    let base := (parts.map (·.2)).headI
    some ({ base with
      geom := unionAll M (parts.map (·.2.geom))
      poly_id := orig_id
      was_multipart := 1
      comb_adj := 0 }, [], [])
  else
    match find_best_adjacent_polygon M (parts.map (·.2.geom))
        (non_dup.map fun p => (p.1, p.2.geom)) minLen with
    | some cidx =>
      match lookupRow non_dup cidx with
      | some target =>
        some (merge_parts_and_targets M cfg (parts.map (·.2)) [target] orig_id
          data_ids generated, [target], [cidx])
      | none => none
    | none =>
      merge_remaining_with_two_targets M cfg parts non_dup orig_id data_ids generated minLen

/-- One iteration of the group loop (lines 172–226): on success the new row
is appended, the group's part labels and the used candidate labels are
recorded, and — on the merge paths only — the freshly generated identifier
joins `self.generated_ids`.  Crucially, `non_dup` itself is not filtered
here: consumed candidates are only dropped after the loop. -/
def resolveGroup {G : Type} [Inhabited G] (M : GeoModel G) (cfg : Config)
    (non_dup : List (Nat × Row G)) (data_ids : List String) (minLen : ℚ)
    (st : ResolveState G) (grp : String × List (Nat × Row G)) : ResolveState G :=
  match resolveGroupCore M cfg non_dup data_ids st.generated minLen grp.1 grp.2 with
  | some (row, ts, used) =>
    { resolved := st.resolved ++ [row]
      consumed_dup := st.consumed_dup ++ grp.2.map (·.1)
      consumed_nondup := st.consumed_nondup ++ used
      generated := if ts.isEmpty then st.generated else st.generated ++ [row.poly_id] }
  | none => st

/-- The group loop of `_resolve_multipart_by_contiguity`, folding over the
part-groups in the order `groupby(orig_id_col)` yields them (ascending key
order). -/
def resolveRun {G : Type} [Inhabited G] (M : GeoModel G) (cfg : Config)
    (groups : List (String × List (Nat × Row G))) (non_dup : List (Nat × Row G))
    (data_ids : List String) (minLen : ℚ) : ResolveState G :=
  groups.foldl (resolveGroup M cfg non_dup data_ids minLen) (initState G)

/-- The identifier normalisation applied to every record of the resolved
output (lines 259–261): truncate to 15 characters, then right-pad with
zeros to 15. -/
def tierOutputId (s : String) : String := pyLjust (pyTake s 15) 15 '0'

/-- The assembled output of `_resolve_multipart_by_contiguity` (lines
228–261): the non-duplicated pool minus the consumed candidates, followed by
the resolved rows, each with the 15-character identifier normalisation. -/
def resolveOutput {G : Type} [Inhabited G] (M : GeoModel G) (cfg : Config)
    (groups : List (String × List (Nat × Row G))) (non_dup : List (Nat × Row G))
    (data_ids : List String) (minLen : ℚ) : List (Row G) :=
  let st := resolveRun M cfg groups non_dup data_ids minLen
  let remaining_nondup := (non_dup.filter fun p => !(st.consumed_nondup.contains p.1)).map (·.2)
  (remaining_nondup ++ st.resolved).map fun r => { r with poly_id := tierOutputId r.poly_id }

/-- The identifier produced for one part by the plain-relabel path of
`_relabel_multipart_blocks` (lines 55–77): the original identifier, a
two-digit zero-filled sequence number (`cumcount + 1`), then `ljust` to the
configured width 16 with `'0'`. -/
def plainRelabelId (origId : String) (count : Nat) : String :=
  pyLjust (origId ++ pyZfill (natStr count) 2) 16 '0'

/-- Modelled from the spec: the strict-mode contiguity classifier of §4.2
and §9, which is absent from the shipped code.  Parts are nodes, a
`touches_with_min_length` relation is an edge, and the group is accepted iff
every part is reachable from part 0 (single-component connectivity via
breadth-first expansion); a single part is trivially contiguous. -/
def are_parts_contiguous_strict {G : Type} (M : GeoModel G) (geoms : List G) (minLen : ℚ) :
    Bool :=
  if geoms.length ≤ 1 then true
  else
    let adj : Fin geoms.length → Fin geoms.length → Bool := fun i j =>
      decide (i ≠ j) && touchesWithLen M minLen (geoms.get i) (geoms.get j)
    let expand : List (Fin geoms.length) → List (Fin geoms.length) := fun s =>
      (List.finRange geoms.length).filter fun j => s.contains j || s.any fun i => adj i j
    match List.finRange geoms.length with
    | [] => true
    | i0 :: _ =>
      let reach := Nat.iterate expand geoms.length [i0]
      (List.finRange geoms.length).all fun i => reach.contains i

/-! ### Concrete instantiations used for witnesses and counterexamples

Geometries are atom identifiers (`Nat`); a scenario's geometry is fully
described by its symmetric table of touching pairs with their shared
boundary length. -/

/-- Geometry model built from a symmetric edge table
`(atom, atom, shared boundary length)`. -/
def mkModel (edges : List (Nat × Nat × ℚ)) : GeoModel Nat where
  touches a b := edges.any fun e => (e.1 == a && e.2.1 == b) || (e.1 == b && e.2.1 == a)
  shared a b :=
    ((edges.find? fun e => (e.1 == a && e.2.1 == b) || (e.1 == b && e.2.1 == a)).map
      (·.2.2)).getD 0
  gunion a _ := a
  empty := 0

/-- Record builder for concrete scenarios; numeric columns not listed are 0. -/
def mkRow (oid pid : String) (g : Nat) (vals : List (String × ℚ)) : Row Nat where
  commune_id := "13110"
  commune := "PUENTE ALTO"
  zone_type := "Urban"
  orig_id := oid
  poly_id := pid
  was_multipart := 0
  comb_adj := 0
  geom := g
  num := fun c => ((vals.find? fun v => v.1 == c).map (·.2)).getD 0

/-- The default column configuration of `MultipartPolygonRelabeller`. -/
def cfgD : Config :=
  ⟨["n_per", "n_vp_ocupada", "prom_escolaridad18"], ["n_per", "n_vp_ocupada"], "n_per"⟩

/-- Scenario for C1: two parts that touch (shared length 10) but carry
different population counts (1 and 2), resolved by the direct-union tier. -/
def geoM1 : GeoModel Nat := mkModel [(0, 1, 10)]

/-- The single part-group of the C1 scenario. -/
def groupsC1 : List (String × List (Nat × Row Nat)) :=
  [("9001", [(0, mkRow "9001" "900101" 0 [("n_per", 1)]),
             (1, mkRow "9001" "900102" 1 [("n_per", 2)])])]

/-- Scenario for C2 (and the C1/C10 witnesses): candidate atom 4 touches all
four parts of two non-contiguous groups with shared length 10. -/
def geoM2 : GeoModel Nat := mkModel [(4, 0, 10), (4, 1, 10), (4, 2, 10), (4, 3, 10)]

/-- Parts of group "A" of the C2 scenario. -/
def partsA : List (Nat × Row Nat) :=
  [(0, mkRow "A" "A01" 0 [("n_per", 1)]), (1, mkRow "A" "A02" 1 [("n_per", 1)])]

/-- Parts of group "B" of the C2 scenario. -/
def partsB : List (Nat × Row Nat) :=
  [(2, mkRow "B" "B01" 2 [("n_per", 1)]), (3, mkRow "B" "B02" 3 [("n_per", 1)])]

/-- The two part-groups of the C2 scenario, in `groupby` key order. -/
def groupsC2 : List (String × List (Nat × Row Nat)) := [("A", partsA), ("B", partsB)]

/-- The single pool candidate of the C2 scenario, with population 5. -/
def candC2 : Row Nat := mkRow "C" "C00" 4 [("n_per", 5)]

/-- The candidate pool of the C2 scenario. -/
def ndC2 : List (Nat × Row Nat) := [(7, candC2)]

/-- The row produced for group "A" of the C2 scenario by the single-neighbor
merge (used by the C1 and C10 witnesses). -/
def mergedA : Row Nat :=
  merge_parts_and_targets geoM2 cfgD (partsA.map (·.2)) [candC2] "A" [] []

/-- Scenario for C3: two non-contiguous two-part groups whose 15-character
original identifiers share the 13-character base obtained by stripping the
final two characters, each group absorbing its own candidate. -/
def geoM3 : GeoModel Nat := mkModel [(20, 0, 10), (20, 1, 10), (21, 2, 10), (21, 3, 10)]

/-- The two part-groups of the C3 scenario. -/
def groupsC3 : List (String × List (Nat × Row Nat)) :=
  [("123456789012301", [(0, mkRow "123456789012301" "" 0 [("n_per", 1)]),
                        (1, mkRow "123456789012301" "" 1 [("n_per", 1)])]),
   ("123456789012302", [(2, mkRow "123456789012302" "" 2 [("n_per", 1)]),
                        (3, mkRow "123456789012302" "" 3 [("n_per", 1)])])]

/-- The candidate pool of the C3 scenario. -/
def ndC3 : List (Nat × Row Nat) :=
  [(50, mkRow "X1" "X1" 20 [("n_per", 2)]), (51, mkRow "X2" "X2" 21 [("n_per", 2)])]

/-- Scenario for C4: a part-group with population 50 and averaged value 12
absorbing one neighbor with population 50 and averaged value 20. -/
def rowBaseC4 : Row Nat := mkRow "Q" "Q01" 0 [("n_per", 50), ("prom_escolaridad18", 12)]

/-- The absorbed neighbor of the C4 scenario. -/
def rowTgtC4 : Row Nat := mkRow "T" "T00" 1 [("n_per", 50), ("prom_escolaridad18", 20)]

/-- Scenario for C5 (the spec's two-hop instance): two parts, two externals
each touching a distinct part (shared length 7), the externals mutually
adjacent with shared length 8. -/
def geoM5 : GeoModel Nat := mkModel [(10, 0, 7), (11, 1, 7), (10, 11, 8)]

/-- The part-group of the C5 scenario. -/
def partsC5 : List (Nat × Row Nat) :=
  [(0, mkRow "P" "P01" 0 [("n_per", 1)]), (1, mkRow "P" "P02" 1 [("n_per", 1)])]

/-- The candidate pool of the C5 scenario. -/
def ndC5 : List (Nat × Row Nat) :=
  [(100, mkRow "E1" "E1" 10 [("n_per", 3)]), (101, mkRow "E2" "E2" 11 [("n_per", 4)])]

/-- Scenario for C6: one part, candidate atom 5 touching it with shared
length 10 and candidate atom 6 not touching it. -/
def geoM6 : GeoModel Nat := mkModel [(5, 0, 10)]

/-- Scenario for C7/C8: parts 0 and 1 touch with shared length 10, part 2
touches nothing. -/
def geoM8 : GeoModel Nat := mkModel [(0, 1, 10)]

/-- The lexicographic `(total_shared, shared_len)` order on `valid_pairs`
entries that `sort(..., reverse=True)` maximises. -/
def scoreLe (a b : Nat × Nat × ℚ × ℚ) : Prop :=
  a.2.2.1 < b.2.2.1 ∨ (a.2.2.1 = b.2.2.1 ∧ a.2.2.2 ≤ b.2.2.2)

/-! ### Helper lemmas -/

theorem candValid_iff {G : Type} (M : GeoModel G) (minLen : ℚ) (parts : List G) (g : G) :
    candValid M minLen parts g = true ↔
      ∀ p ∈ parts, M.touches g p = true ∧ minLen ≤ M.shared g p := by
  simp [candValid, List.all_eq_true, Bool.and_eq_true, decide_eq_true_eq]

/-! ### C7: the shipped contiguity classifier -/

/-- C7: the contiguity classifier accepts every single-part group, and for a
group of more than one part it accepts iff every part has at least one other
part it touches with shared boundary length at least the threshold
(per-part degree ≥ 1, not full connectivity). -/
theorem c7_contiguity_classifier {G : Type} (M : GeoModel G) (geoms : List G) (minLen : ℚ) :
    (geoms.length = 1 → are_parts_contiguous M geoms minLen = true) ∧
    (1 < geoms.length →
      (are_parts_contiguous M geoms minLen = true ↔
        ∀ i : Fin geoms.length, ∃ j : Fin geoms.length, i ≠ j ∧
          M.touches (geoms.get i) (geoms.get j) = true ∧
          minLen ≤ M.shared (geoms.get i) (geoms.get j))) := by
  constructor
  · intro h
    simp [are_parts_contiguous, h]
  · intro h
    have hn : ¬ (geoms.length ≤ 1) := by omega
    simp only [are_parts_contiguous, touchesWithLen, List.all_eq_true, List.any_eq_true,
      Bool.or_eq_true, Bool.and_eq_true, decide_eq_true_eq, hn, decide_False,
      Bool.false_eq_true, false_or]
    constructor
    · intro hall i
      obtain ⟨j, _, hij, ht, hs⟩ := hall i (List.mem_finRange i)
      exact ⟨j, hij, ht, hs⟩
    · intro hall i _
      obtain ⟨j, hij, ht, hs⟩ := hall i
      exact ⟨j, List.mem_finRange j, hij, ht, hs⟩

/-- Witness for C7 at a concrete two-part group whose parts touch each other
with shared length 10 under threshold 5. -/
theorem c7_contiguity_classifier_witness :
    are_parts_contiguous geoM8 [0, 1] 5 = true :=
  ((c7_contiguity_classifier geoM8 [0, 1] 5).2 (by decide)).mpr (by decide)

/-! ### Shape of a resolved group -/

theorem contains_eq_decide_mem {α : Type} [BEq α] [LawfulBEq α] (l : List α) (a : α) :
    l.contains a = decide (a ∈ l) := by
  simp [List.contains]

theorem merge_num_count {G : Type} [Inhabited G] (M : GeoModel G) (cfg : Config)
    (parts targets : List (Row G)) (oid : String) (ids gen : List String) (c : String)
    (hc : c ∈ cfg.count_cols) :
    (merge_parts_and_targets M cfg parts targets oid ids gen).num c
      = parts.headI.num c + (targets.map fun t => t.num c).sum := by
  simp [merge_parts_and_targets, hc]

theorem merge_num_other {G : Type} [Inhabited G] (M : GeoModel G) (cfg : Config)
    (parts targets : List (Row G)) (oid : String) (ids gen : List String) (c : String)
    (hn : c ∉ cfg.num_cols) (hc : c ∉ cfg.count_cols) :
    (merge_parts_and_targets M cfg parts targets oid ids gen).num c = targets.headI.num c := by
  have h2 : c ∉ avgCols cfg := fun hmem => hn (List.mem_filter.mp hmem).1
  simp [merge_parts_and_targets, hc, h2]

/-- Either a group is resolved by the direct-union tier (no absorbed
targets, output copied from the first part) or by a merge tier (output built
by `_merge_parts_and_targets` from the absorbed targets). -/
theorem resolveGroupCore_cases {G : Type} [Inhabited G] (M : GeoModel G) (cfg : Config)
    (non_dup : List (Nat × Row G)) (data_ids generated : List String) (minLen : ℚ)
    (orig_id : String) (parts : List (Nat × Row G)) (row : Row G) (ts : List (Row G))
    (used : List Nat)
    (h : resolveGroupCore M cfg non_dup data_ids generated minLen orig_id parts
      = some (row, ts, used)) :
    (ts = [] ∧ row = { (parts.map (·.2)).headI with
        geom := unionAll M (parts.map (·.2.geom))
        poly_id := orig_id
        was_multipart := 1
        comb_adj := 0 }) ∨
    (ts ≠ [] ∧
      row = merge_parts_and_targets M cfg (parts.map (·.2)) ts orig_id data_ids generated) := by
  unfold resolveGroupCore at h
  split at h
  · simp only [Option.some.injEq, Prod.mk.injEq] at h
    obtain ⟨hrow, hts, -⟩ := h
    exact Or.inl ⟨hts.symm, hrow.symm⟩
  · split at h
    · split at h
      · simp only [Option.some.injEq, Prod.mk.injEq] at h
        obtain ⟨hrow, hts, -⟩ := h
        refine Or.inr ⟨?_, ?_⟩
        · rw [← hts]; simp
        · rw [← hts, ← hrow]
      · exact Option.noConfusion h
    · unfold merge_remaining_with_two_targets at h
      split at h
      · exact Option.noConfusion h
      · split at h
        · exact Option.noConfusion h
        · split at h
          · simp only [Option.some.injEq, Prod.mk.injEq] at h
            obtain ⟨hrow, hts, -⟩ := h
            refine Or.inr ⟨?_, ?_⟩
            · rw [← hts]; simp
            · rw [← hts, ← hrow]
          · exact Option.noConfusion h

/-! ### C1: count-attribute conservation -/

/-- C1 counterexample: a contiguous two-part group with populations 1 and 2
is resolved by the direct-union tier into a single record whose population
is 1, the first part's value — not 3, the sum over the group's parts. -/
theorem c1_conservation_counterexample :
    ((resolveRun geoM1 cfgD groupsC1 [] [] 5).resolved.map fun r => r.num "n_per") = [1] ∧
    ((groupsC1.headI.2.map fun p => p.2.num "n_per").sum = 3) ∧ (1 : ℚ) ≠ 3 := by
  refine ⟨by decide, by decide, by norm_num⟩

/-- C1 amended: for every part-group resolved by any tier, the output value
of a count-type attribute equals the attribute of the group's *first* part
plus the sum over the absorbed candidates (the direct-union path absorbs
none); the remaining parts of the group do not contribute. -/
theorem c1_count_amended {G : Type} [Inhabited G] (M : GeoModel G) (cfg : Config)
    (non_dup : List (Nat × Row G)) (data_ids generated : List String) (minLen : ℚ)
    (orig_id : String) (parts : List (Nat × Row G)) (row : Row G) (ts : List (Row G))
    (used : List Nat) (c : String)
    (h : resolveGroupCore M cfg non_dup data_ids generated minLen orig_id parts
      = some (row, ts, used))
    (hc : c ∈ cfg.count_cols) :
    row.num c = (parts.map Prod.snd).headI.num c + (ts.map fun t => t.num c).sum := by
  rcases resolveGroupCore_cases M cfg non_dup data_ids generated minLen orig_id parts
      row ts used h with ⟨hts, hrow⟩ | ⟨-, hrow⟩
  · subst hrow hts
    simp
  · subst hrow
    exact merge_num_count M cfg _ ts orig_id data_ids generated c hc

/-- Witness for C1 amended: group "A" of the double-consumption scenario,
resolved by a single-neighbor merge, yields population 1 + 5. -/
theorem c1_count_amended_witness :
    mergedA.num "n_per"
      = (partsA.map Prod.snd).headI.num "n_per" + ([candC2].map fun t => t.num "n_per").sum :=
  c1_count_amended geoM2 cfgD ndC2 [] [] 5 "A" partsA mergedA [candC2] [7] "n_per"
    (by rfl) (by decide)

/-! ### C2: exclusive consumption of pool candidates -/

/-- C2 failing run: candidate 7 touches all parts of the two non-contiguous
groups "A" and "B"; both groups resolve through the single-neighbor tier and
both consume candidate 7, because the loop searches the unfiltered pool.
Each output row absorbs the candidate's population 5, counting it twice. -/
theorem c2_candidate_double_consumption :
    (resolveRun geoM2 cfgD groupsC2 ndC2 [] 5).consumed_nondup = [7, 7] ∧
    ((resolveRun geoM2 cfgD groupsC2 ndC2 [] 5).resolved.map fun r =>
      (r.comb_adj, r.num "n_per")) = [(1, 6), (1, 6)] := by
  exact ⟨by decide, by decide⟩

/-! ### C3: uniqueness of final identifiers -/

/-- C3 failing run: two groups with 15-character original identifiers
sharing a 13-character base each absorb their own candidate; the allocator
produces the distinct untruncated identifiers `1234567890123001` and
`1234567890123002`, but the final truncation to 15 characters collapses
both to `123456789012300`, so the output identifiers are not pairwise
distinct. -/
theorem c3_truncation_collision :
    ((resolveOutput geoM3 cfgD groupsC3 ndC3 [] 5).map fun r => r.poly_id)
      = ["123456789012300", "123456789012300"] ∧
    ¬ ((resolveOutput geoM3 cfgD groupsC3 ndC3 [] 5).map fun r => r.poly_id).Nodup := by
  exact ⟨by decide, by decide⟩

/-! ### C4: population-weighted averages -/

/-- The averaged-column branch of `_merge_parts_and_targets` (lines
400–420), written out as the Python expression tree. -/
theorem merge_num_avg_eq {G : Type} [Inhabited G] (M : GeoModel G) (cfg : Config)
    (parts targets : List (Row G)) (oid : String) (ids gen : List String) (c : String)
    (hc : c ∈ cfg.num_cols) (hcc : c ∉ cfg.count_cols) :
    (merge_parts_and_targets M cfg parts targets oid ids gen).num c
      = if 0 < parts.headI.num cfg.pop_col + (targets.map fun t => t.num cfg.pop_col).sum then
          parts.headI.num c * (parts.headI.num cfg.pop_col
            / (parts.headI.num cfg.pop_col + (targets.map fun t => t.num cfg.pop_col).sum))
          + (if 0 < (targets.map fun t => t.num cfg.pop_col).sum then
              (targets.map fun t => t.num c * t.num cfg.pop_col).sum
                / (targets.map fun t => t.num cfg.pop_col).sum
            else parts.headI.num c)
            * ((targets.map fun t => t.num cfg.pop_col).sum
              / (parts.headI.num cfg.pop_col + (targets.map fun t => t.num cfg.pop_col).sum))
        else parts.headI.num c := by
  have havg : c ∈ avgCols cfg := by
    refine List.mem_filter.mpr ⟨hc, ?_⟩
    simp [hcc]
  simp [merge_parts_and_targets, hcc, havg]

/-- C4: for a merge with absorbed candidates, a continuous-type attribute of
the output is the population-weighted average of the base record's value
(weighted by the part-group's population, read off the base record that
represents the group after internal union) and the absorbed candidates'
values (each weighted by its own population); zero total absorbed population
falls back to the base value, and a non-positive combined population passes
the base value through unchanged. -/
theorem c4_weighted_average {G : Type} [Inhabited G] (M : GeoModel G) (cfg : Config)
    (parts targets : List (Row G)) (oid : String) (ids gen : List String) (c : String)
    (hc : c ∈ cfg.num_cols) (hcc : c ∉ cfg.count_cols) :
    (0 ≤ parts.headI.num cfg.pop_col →
      0 < (targets.map fun t => t.num cfg.pop_col).sum →
      (merge_parts_and_targets M cfg parts targets oid ids gen).num c
        = (parts.headI.num c * parts.headI.num cfg.pop_col
            + (targets.map fun t => t.num c * t.num cfg.pop_col).sum)
          / (parts.headI.num cfg.pop_col + (targets.map fun t => t.num cfg.pop_col).sum)) ∧
    ((targets.map fun t => t.num cfg.pop_col).sum = 0 →
      (merge_parts_and_targets M cfg parts targets oid ids gen).num c
        = parts.headI.num c) ∧
    (parts.headI.num cfg.pop_col + (targets.map fun t => t.num cfg.pop_col).sum ≤ 0 →
      (merge_parts_and_targets M cfg parts targets oid ids gen).num c
        = parts.headI.num c) := by
  have havg := merge_num_avg_eq M cfg parts targets oid ids gen c hc hcc
  refine ⟨?_, ?_, ?_⟩
  · intro hB hT
    have htot : 0 < parts.headI.num cfg.pop_col + (targets.map fun t => t.num cfg.pop_col).sum :=
      add_pos_of_nonneg_of_pos hB hT
    rw [havg, if_pos htot, if_pos hT]
    have hT' : (targets.map fun t => t.num cfg.pop_col).sum ≠ 0 := ne_of_gt hT
    have htot' : parts.headI.num cfg.pop_col
        + (targets.map fun t => t.num cfg.pop_col).sum ≠ 0 := ne_of_gt htot
    field_simp
  · intro hT0
    rw [havg, hT0]
    by_cases hp : 0 < parts.headI.num cfg.pop_col + 0
    · rw [if_pos hp, if_neg (lt_irrefl 0)]
      have hB : parts.headI.num cfg.pop_col ≠ 0 := by
        intro h0
        rw [h0] at hp
        simp at hp
      rw [add_zero]
      simp [div_self hB]
    · rw [if_neg hp]
  · intro hle
    rw [havg, if_neg (not_lt.mpr hle)]

/-- Witness for C4 at the spec's concrete instance: base population 50 with
value 12, absorbed neighbor population 50 with value 20, merged value 16. -/
theorem c4_weighted_average_witness :
    (merge_parts_and_targets geoM1 cfgD [rowBaseC4] [rowTgtC4] "Q" [] []).num
      "prom_escolaridad18" = 16 := by
  have h := (c4_weighted_average geoM1 cfgD [rowBaseC4] [rowTgtC4] "Q" [] []
    "prom_escolaridad18" (by decide) (by decide)).1 (by decide) (by decide)
  rw [h]
  decide

/-! ### C10: non-recomputed fields come from the first absorbed candidate -/

/-- C10: on the single- and two-neighbor merge paths (one or two absorbed
candidates), every field the merge does not explicitly recompute — commune
identifier, commune name, zone classification, and any numeric column
outside the declared numeric and count sets — is copied from the first
absorbed candidate, not from the part-group being resolved. -/
theorem c10_metadata_from_first_target {G : Type} [Inhabited G] (M : GeoModel G)
    (cfg : Config) (non_dup : List (Nat × Row G)) (data_ids generated : List String)
    (minLen : ℚ) (orig_id : String) (parts : List (Nat × Row G)) (row : Row G)
    (ts : List (Row G)) (used : List Nat)
    (h : resolveGroupCore M cfg non_dup data_ids generated minLen orig_id parts
      = some (row, ts, used))
    (hts : ts ≠ []) :
    row.commune_id = ts.headI.commune_id ∧ row.commune = ts.headI.commune ∧
    row.zone_type = ts.headI.zone_type ∧
    ∀ c, c ∉ cfg.num_cols → c ∉ cfg.count_cols → row.num c = ts.headI.num c := by
  rcases resolveGroupCore_cases M cfg non_dup data_ids generated minLen orig_id parts
      row ts used h with ⟨hts0, -⟩ | ⟨-, hrow⟩
  · exact absurd hts0 hts
  · subst hrow
    refine ⟨?_, ?_, ?_, ?_⟩
    · simp [merge_parts_and_targets]
    · simp [merge_parts_and_targets]
    · simp [merge_parts_and_targets]
    · intro c hn hc
      exact merge_num_other M cfg _ ts orig_id data_ids generated c hn hc

/-- Witness for C10: the merged record of group "A" carries the commune
identifier and the undeclared numeric column of the absorbed candidate. -/
theorem c10_metadata_from_first_target_witness :
    mergedA.commune_id = candC2.commune_id ∧ mergedA.zone_type = candC2.zone_type ∧
    mergedA.num "undeclared" = candC2.num "undeclared" := by
  have h := c10_metadata_from_first_target geoM2 cfgD ndC2 [] [] 5 "A" partsA mergedA
    [candC2] [7] (by rfl) (List.cons_ne_nil _ _)
  exact ⟨h.1, h.2.2.1, h.2.2.2 "undeclared" (by decide) (by decide)⟩

/-! ### C9: identifier widths -/

theorem strMk_data (l : List Char) : (String.mk l).data = l := rfl

theorem strApp_data (s t : String) : (s ++ t).data = s.data ++ t.data := rfl

theorem pyZfill_natStr_two : ∀ m, m < 100 → (pyZfill (natStr m) 2).data.length = 2 := by decide

/-- C9 counterexample: a 15-character original identifier yields a
17-character plain-relabel identifier — `ljust` pads but never truncates,
so the claimed fixed width of 16 fails. -/
theorem c9_width_counterexample :
    (plainRelabelId "123456789012345" 1).data.length = 17 ∧ (17 : Nat) ≠ 16 := by
  exact ⟨by decide, by decide⟩

/-- C9 amended: a plain-relabel identifier is exactly 16 characters provided
the original identifier has at most 14 characters and the part's sequence
number is below 100; every record of the tier-resolution output has an
identifier of exactly 15 characters, unconditionally. -/
theorem c9_identifier_width {G : Type} [Inhabited G] (M : GeoModel G) (cfg : Config)
    (groups : List (String × List (Nat × Row G))) (non_dup : List (Nat × Row G))
    (data_ids : List String) (minLen : ℚ) (origId : String) (count : Nat)
    (horig : origId.data.length ≤ 14) (hcount : count < 100) :
    (plainRelabelId origId count).data.length = 16 ∧
    ∀ r ∈ resolveOutput M cfg groups non_dup data_ids minLen,
      r.poly_id.data.length = 15 := by
  constructor
  · have h2 := pyZfill_natStr_two count hcount
    unfold plainRelabelId pyLjust
    rw [strMk_data, List.length_append, List.length_replicate, strApp_data,
      List.length_append, h2]
    omega
  · intro r hr
    simp only [resolveOutput] at hr
    rcases List.mem_map.mp hr with ⟨r', -, rfl⟩
    show (tierOutputId r'.poly_id).data.length = 15
    unfold tierOutputId pyLjust pyTake
    rw [strMk_data, List.length_append, List.length_replicate, strMk_data,
      List.length_take]
    omega

/-- Witness for C9 amended at a 4-character original identifier. -/
theorem c9_identifier_width_witness : (plainRelabelId "1234" 3).data.length = 16 :=
  (c9_identifier_width geoM1 cfgD [] [] [] 5 "1234" 3 (by decide) (by decide)).1

/-! ### C6: the single-neighbor search -/

theorem fbap_foldl_snd_mono {G : Type} (M : GeoModel G) (parts : List G) (minLen : ℚ) :
    ∀ (cs : List (Nat × G)) (acc : Option Nat × ℚ),
      acc.2 ≤ (cs.foldl (fbapStep M parts minLen) acc).2 := by
  intro cs
  induction cs with
  | nil => intro acc; exact le_refl _
  | cons c cs ih =>
    intro acc
    rw [List.foldl_cons]
    refine le_trans ?_ (ih (fbapStep M parts minLen acc c))
    unfold fbapStep
    split
    · rename_i hcond
      rw [Bool.and_eq_true, decide_eq_true_eq] at hcond
      exact le_of_lt hcond.2
    · exact le_refl _

theorem fbap_foldl_bound {G : Type} (M : GeoModel G) (parts : List G) (minLen : ℚ) :
    ∀ (cs : List (Nat × G)) (acc : Option Nat × ℚ) (d : Nat × G), d ∈ cs →
      candValid M minLen parts d.2 = true →
      candTotal M parts d.2 ≤ (cs.foldl (fbapStep M parts minLen) acc).2 := by
  intro cs
  induction cs with
  | nil => intro acc d hd; cases hd
  | cons c cs ih =>
    intro acc d hd hv
    rw [List.foldl_cons]
    rcases List.mem_cons.mp hd with rfl | hd'
    · refine le_trans ?_ (fbap_foldl_snd_mono M parts minLen cs _)
      unfold fbapStep
      split
      · exact le_refl _
      · rename_i hcond
        rw [Bool.and_eq_true, decide_eq_true_eq] at hcond
        have hnlt : ¬ acc.2 < candTotal M parts d.2 := fun hlt => hcond ⟨hv, hlt⟩
        exact not_lt.mp hnlt
    · exact ih _ d hd' hv

theorem fbap_foldl_character {G : Type} (M : GeoModel G) (parts : List G) (minLen : ℚ) :
    ∀ (cs : List (Nat × G)) (acc : Option Nat × ℚ),
      cs.foldl (fbapStep M parts minLen) acc = acc ∨
      ∃ c ∈ cs, candValid M minLen parts c.2 = true ∧
        cs.foldl (fbapStep M parts minLen) acc = (some c.1, candTotal M parts c.2) := by
  intro cs
  induction cs with
  | nil => intro acc; exact Or.inl rfl
  | cons c cs ih =>
    intro acc
    rw [List.foldl_cons]
    rcases ih (fbapStep M parts minLen acc c) with h | ⟨c', hc', hv', heq⟩
    · rw [h]
      unfold fbapStep
      split
      · rename_i hcond
        rw [Bool.and_eq_true, decide_eq_true_eq] at hcond
        exact Or.inr ⟨c, List.mem_cons_self c cs, hcond.1, rfl⟩
      · exact Or.inl rfl
    · exact Or.inr ⟨c', List.mem_cons_of_mem c hc', hv', heq⟩

theorem candValid_total_pos {G : Type} (M : GeoModel G) (minLen : ℚ) (parts : List G)
    (g : G) (hmin : 0 < minLen) (hne : parts ≠ [])
    (hv : candValid M minLen parts g = true) : 0 < candTotal M parts g := by
  unfold candTotal
  refine List.sum_pos _ ?_ ?_
  · intro x hx
    rcases List.mem_map.mp hx with ⟨p, hp, rfl⟩
    have h := (candValid_iff M minLen parts g).mp hv p hp
    exact lt_of_lt_of_le hmin h.2
  · simpa using hne

/-- C6: the single-neighbor search returns `none` exactly when no candidate
touches every part with per-part shared length at least the threshold, and a
returned label belongs to a fully-valid candidate whose total shared length
is maximal among all fully-valid candidates. -/
theorem c6_single_neighbor_search {G : Type} (M : GeoModel G) (parts : List G)
    (candidates : List (Nat × G)) (minLen : ℚ) (hmin : 0 < minLen) (hne : parts ≠ []) :
    (find_best_adjacent_polygon M parts candidates minLen = none ↔
      ∀ c ∈ candidates, ¬ ∀ p ∈ parts, M.touches c.2 p = true ∧ minLen ≤ M.shared c.2 p) ∧
    ∀ i, find_best_adjacent_polygon M parts candidates minLen = some i →
      ∃ c ∈ candidates, c.1 = i ∧
        (∀ p ∈ parts, M.touches c.2 p = true ∧ minLen ≤ M.shared c.2 p) ∧
        ∀ d ∈ candidates, (∀ p ∈ parts, M.touches d.2 p = true ∧ minLen ≤ M.shared d.2 p) →
          candTotal M parts d.2 ≤ candTotal M parts c.2 := by
  constructor
  · constructor
    · intro h c hc hval
      have hv : candValid M minLen parts c.2 = true := (candValid_iff _ _ _ _).mpr hval
      rcases fbap_foldl_character M parts minLen candidates (none, 0) with hchar |
        ⟨c', _, _, heq⟩
      · have hb := fbap_foldl_bound M parts minLen candidates (none, 0) c hc hv
        rw [hchar] at hb
        exact absurd hb (not_le.mpr (candValid_total_pos M minLen parts c.2 hmin hne hv))
      · unfold find_best_adjacent_polygon at h
        rw [heq] at h
        exact Option.noConfusion h
    · intro h
      rcases fbap_foldl_character M parts minLen candidates (none, 0) with hchar |
        ⟨c', hc', hv', heq⟩
      · unfold find_best_adjacent_polygon
        rw [hchar]
      · exact absurd ((candValid_iff _ _ _ _).mp hv') (h c' hc')
  · intro i hi
    rcases fbap_foldl_character M parts minLen candidates (none, 0) with hchar |
      ⟨c', hc', hv', heq⟩
    · unfold find_best_adjacent_polygon at hi
      rw [hchar] at hi
      exact Option.noConfusion hi
    · unfold find_best_adjacent_polygon at hi
      rw [heq] at hi
      refine ⟨c', hc', Option.some.inj hi, (candValid_iff _ _ _ _).mp hv', ?_⟩
      intro d hd hdv
      have hb := fbap_foldl_bound M parts minLen candidates (none, 0) d hd
        ((candValid_iff _ _ _ _).mpr hdv)
      rw [heq] at hb
      exact hb

/-- Witness for C6: with the only candidate not touching the part, the
search returns `none`. -/
theorem c6_single_neighbor_search_witness :
    find_best_adjacent_polygon geoM6 [0] [(4, 6)] 1 = none :=
  ((c6_single_neighbor_search geoM6 [0] [(4, 6)] 1 (by decide) (by decide)).1).mpr (by decide)

/-! ### C5: the two-neighbor (two-hop) search -/

theorem scoreLe_refl (a : Nat × Nat × ℚ × ℚ) : scoreLe a a := Or.inr ⟨rfl, le_refl _⟩

theorem scoreLe_trans {a b c : Nat × Nat × ℚ × ℚ} (h1 : scoreLe a b) (h2 : scoreLe b c) :
    scoreLe a c := by
  rcases h1 with h1 | ⟨e1, l1⟩
  · rcases h2 with h2 | ⟨e2, l2⟩
    · exact Or.inl (lt_trans h1 h2)
    · exact Or.inl (by rw [← e2]; exact h1)
  · rcases h2 with h2 | ⟨e2, l2⟩
    · exact Or.inl (by rw [e1]; exact h2)
    · exact Or.inr ⟨e1.trans e2, le_trans l1 l2⟩

theorem scoreGt_true_le {a b : Nat × Nat × ℚ × ℚ} (h : scoreGt a b = true) : scoreLe b a := by
  unfold scoreGt at h
  rw [Bool.or_eq_true, Bool.and_eq_true] at h
  rcases h with h | ⟨h1, h2⟩
  · exact Or.inl (of_decide_eq_true h)
  · exact Or.inr ⟨(of_decide_eq_true h1).symm, le_of_lt (of_decide_eq_true h2)⟩

theorem scoreGt_false_le {a b : Nat × Nat × ℚ × ℚ} (h : scoreGt a b = false) : scoreLe a b := by
  rcases lt_trichotomy a.2.2.1 b.2.2.1 with hlt | heq | hgt
  · exact Or.inl hlt
  · rcases le_or_lt a.2.2.2 b.2.2.2 with hle | hgt2
    · exact Or.inr ⟨heq, hle⟩
    · exfalso
      have htrue : scoreGt a b = true := by
        unfold scoreGt
        rw [Bool.or_eq_true, Bool.and_eq_true]
        exact Or.inr ⟨decide_eq_true heq, decide_eq_true hgt2⟩
      rw [h] at htrue
      exact Bool.noConfusion htrue
  · exfalso
    have htrue : scoreGt a b = true := by
      unfold scoreGt
      rw [Bool.or_eq_true]
      exact Or.inl (decide_eq_true hgt)
    rw [h] at htrue
    exact Bool.noConfusion htrue

theorem pickTop_spec : ∀ (xs : List (Nat × Nat × ℚ × ℚ)) (x : Nat × Nat × ℚ × ℚ),
    (pickTop x xs = x ∨ pickTop x xs ∈ xs) ∧ scoreLe x (pickTop x xs) ∧
      ∀ y ∈ xs, scoreLe y (pickTop x xs) := by
  intro xs
  induction xs with
  | nil =>
    intro x
    exact ⟨Or.inl rfl, scoreLe_refl x, by intro y hy; cases hy⟩
  | cons y ys ih =>
    intro x
    have hstep : pickTop x (y :: ys) = pickTop (if scoreGt y x then y else x) ys := rfl
    by_cases hg : scoreGt y x = true
    · rw [hstep, if_pos hg]
      obtain ⟨hmem, hx', hall⟩ := ih y
      refine ⟨?_, ?_, ?_⟩
      · rcases hmem with h | h
        · rw [h]
          exact Or.inr (List.mem_cons_self y ys)
        · exact Or.inr (List.mem_cons_of_mem y h)
      · exact scoreLe_trans (scoreGt_true_le hg) hx'
      · intro z hz
        rcases List.mem_cons.mp hz with rfl | hz'
        · exact hx'
        · exact hall z hz'
    · rw [hstep, if_neg hg]
      obtain ⟨hmem, hx', hall⟩ := ih x
      refine ⟨?_, ?_, ?_⟩
      · rcases hmem with h | h
        · exact Or.inl h
        · exact Or.inr (List.mem_cons_of_mem y h)
      · exact hx'
      · intro z hz
        rcases List.mem_cons.mp hz with rfl | hz'
        · exact scoreLe_trans (scoreGt_false_le (Bool.eq_false_iff.mpr hg)) hx'
        · exact hall z hz'

theorem selectTop_spec (l : List (Nat × Nat × ℚ × ℚ)) (e : Nat × Nat × ℚ × ℚ)
    (h : selectTop l = some e) : e ∈ l ∧ ∀ y ∈ l, scoreLe y e := by
  cases l with
  | nil => exact Option.noConfusion h
  | cons x xs =>
    have he : e = pickTop x xs := by
      unfold selectTop at h
      exact (Option.some.inj h).symm
    subst he
    obtain ⟨hmem, hx, hall⟩ := pickTop_spec xs x
    constructor
    · rcases hmem with h' | h'
      · rw [h']
        exact List.mem_cons_self x xs
      · exact List.mem_cons_of_mem x h'
    · intro y hy
      rcases List.mem_cons.mp hy with rfl | hy'
      · exact hx
      · exact hall y hy'

theorem mem_upperPairs {α : Type} : ∀ (l : List α) (pr : α × α), pr ∈ upperPairs l →
    pr.1 ∈ l ∧ pr.2 ∈ l := by
  intro l
  induction l with
  | nil => intro pr h; cases h
  | cons x xs ih =>
    intro pr h
    unfold upperPairs at h
    rcases List.mem_append.mp h with h1 | h2
    · rcases List.mem_map.mp h1 with ⟨y, hy, rfl⟩
      exact ⟨List.mem_cons_self x xs, List.mem_cons_of_mem x hy⟩
    · have hih := ih pr h2
      exact ⟨List.mem_cons_of_mem x hih.1, List.mem_cons_of_mem x hih.2⟩

/-- C5: the two-hop search considers only pool candidates touching at least
one part; a returned result's label pair comes from a `valid_pairs` entry —
two touching candidates that mutually touch with shared length at least the
threshold and whose touched-part sets jointly cover every part — whose
`(total_shared, shared_len)` key is maximal in the lexicographic order among
all entries; with no valid pair it returns `none`; and on the spec's
concrete instance it selects exactly the mutually-adjacent pair. -/
theorem c5_two_neighbor_search {G : Type} [Inhabited G] (M : GeoModel G) (cfg : Config)
    (parts non_dup : List (Nat × Row G)) (oid : String) (ids gen : List String)
    (minLen : ℚ) :
    (∀ out, merge_remaining_with_two_targets M cfg parts non_dup oid ids gen minLen
        = some out →
      ∃ e ∈ validPairs M minLen parts non_dup, out.2.2 = [e.1, e.2.1] ∧
        ∀ e' ∈ validPairs M minLen parts non_dup, scoreLe e' e) ∧
    (∀ e ∈ validPairs M minLen parts non_dup,
      ∃ tc1 ∈ touchingCandidates M parts non_dup,
        ∃ tc2 ∈ touchingCandidates M parts non_dup,
          e.1 = tc1.1 ∧ e.2.1 = tc2.1 ∧
          M.touches tc1.2.1.geom tc2.2.1.geom = true ∧
          minLen ≤ M.shared tc1.2.1.geom tc2.2.1.geom ∧
          (∀ p ∈ parts, tc1.2.2.contains p.1 = true ∨ tc2.2.2.contains p.1 = true) ∧
          e.2.2.1 = pairScore M parts tc1 tc2 ∧
          e.2.2.2 = M.shared tc1.2.1.geom tc2.2.1.geom) ∧
    (∀ tc ∈ touchingCandidates M parts non_dup,
      (tc.1, tc.2.1) ∈ non_dup ∧ (∃ p ∈ parts, M.touches tc.2.1.geom p.2.geom = true) ∧
        tc.2.2 = touchedParts M parts tc.2.1) ∧
    (validPairs M minLen parts non_dup = [] →
      merge_remaining_with_two_targets M cfg parts non_dup oid ids gen minLen = none) ∧
    (merge_remaining_with_two_targets geoM5 cfgD partsC5 ndC5 "P" [] [] 5).map
      (fun out => out.2.2) = some [100, 101] := by
  refine ⟨?_, ?_, ?_, ?_, by decide⟩
  · intro out h
    unfold merge_remaining_with_two_targets at h
    split at h
    · exact Option.noConfusion h
    · split at h
      · exact Option.noConfusion h
      · rename_i e hsel
        obtain ⟨he_mem, he_max⟩ := selectTop_spec _ _ hsel
        split at h
        · injection h with h'
          refine ⟨e, he_mem, ?_, he_max⟩
          rw [← h']
        · exact Option.noConfusion h
  · intro e he
    rcases List.mem_filterMap.mp he with ⟨pr, hpr, hpe⟩
    obtain ⟨h1, h2⟩ := mem_upperPairs _ pr hpr
    unfold pairEntry at hpe
    split at hpe
    · rename_i hcond
      rw [Bool.and_eq_true, Bool.and_eq_true] at hcond
      obtain ⟨⟨ht, hs⟩, hcov⟩ := hcond
      injection hpe with hpe'
      refine ⟨pr.1, h1, pr.2, h2, ?_, ?_, ht, of_decide_eq_true hs, ?_, ?_, ?_⟩
      · rw [← hpe']
      · rw [← hpe']
      · intro p hp
        have hb := List.all_eq_true.mp hcov p hp
        rw [Bool.or_eq_true] at hb
        exact hb
      · rw [← hpe']
      · rw [← hpe']
    · exact Option.noConfusion hpe
  · intro tc htc
    unfold touchingCandidates at htc
    rcases List.mem_map.mp htc with ⟨cand, hcand, rfl⟩
    have hf := List.mem_filter.mp hcand
    refine ⟨hf.1, ?_, rfl⟩
    have ha := hf.2
    rw [List.any_eq_true] at ha
    rcases ha with ⟨p, hp, ht⟩
    exact ⟨p, hp, ht⟩
  · intro hvp
    unfold merge_remaining_with_two_targets
    split
    · rfl
    · rw [hvp]
      rfl

/-- Witness for C5: raising the threshold above the externals' shared
length 8 empties `valid_pairs`, and the two-hop search returns `none`. -/
theorem c5_two_neighbor_search_witness :
    merge_remaining_with_two_targets geoM5 cfgD partsC5 ndC5 "P" [] [] 9 = none :=
  (c5_two_neighbor_search geoM5 cfgD partsC5 ndC5 "P" [] [] 9).2.2.2.1 (by decide)

/-! ### C8: the spec's weak-contiguity edge case -/

/-- C8 counterexample: on a 3-part group whose parts 0 and 1 touch with
shared length 10 while part 2 touches nothing, the shipped classifier
returns `false` — it does not accept the group, contrary to the claim. -/
theorem c8_counterexample : are_parts_contiguous geoM8 [0, 1, 2] 5 = false := by decide

/-- C8 amended: on the 3-part group with an isolated part, the shipped
classifier already rejects the group (the isolated part has no qualifying
sibling), and the connectivity-correct strict-mode classifier modelled from
the spec rejects it as well. -/
theorem c8_amended :
    are_parts_contiguous geoM8 [0, 1, 2] 5 = false ∧
    are_parts_contiguous_strict geoM8 [0, 1, 2] 5 = false := by
  exact ⟨by decide, by decide⟩

end Census
